import Mathlib

/-!
Verification of the core algorithms of a two-venue sports arbitrage bot.

The development shallowly embeds the relevant Python modules over exact
rational arithmetic:

- the stake sizer (test_opposite_outcomes.py);
- the per-event arbitrage / value-edge detection core of
  src/probability_engine.py (ProbabilityEngine.detect_value_opportunities);
- the risk gate and two-leg execution engine of src/autobet.py
  (AutobetEngine.should_autobet, autobet_opportunity, _execute_real_bets);
- the dedup store of src/database.py (ArbitrageDatabase.is_duplicate,
  insert_opportunity), with the SQLite table modelled as a list of rows in
  timestamp order and the SHA-256 opportunity hash modelled by equality of
  the hashed tuple (the hash is injective on the data we care about);
- the normalizer of src/normalizers/market_normalizer.py.

Machine floats are modelled as rationals; the Python float computations at
issue are products, quotients and comparisons whose claims are stated up to
exact rational identity.
-/

namespace ArbBot

/-! ## Stake sizer

From test_opposite_outcomes.py: for total capital and the two decimal odds,
  bet1 = capital * odds2 / (odds1 + odds2)
  bet2 = capital * odds1 / (odds1 + odds2)
-/

def bet_leg1 (capital odds1 odds2 : ℚ) : ℚ := capital * odds2 / (odds1 + odds2)

def bet_leg2 (capital odds1 odds2 : ℚ) : ℚ := capital * odds1 / (odds1 + odds2)

/-- C4: for all decimal odds o1, o2 > 1 and capital c > 0, the two stakes
stake1 = c * o2 / (o1 + o2) and stake2 = c * o1 / (o1 + o2) sum to c, and the
profit is identical whichever side wins: stake1 * o1 - c = stake2 * o2 - c
(exactly, hence within any floating-point tolerance). -/
theorem stake_sizing_equal_profit (c o1 o2 : ℚ)
    (hc : 0 < c) (h1 : 1 < o1) (h2 : 1 < o2) :
    bet_leg1 c o1 o2 + bet_leg2 c o1 o2 = c ∧
    bet_leg1 c o1 o2 * o1 - c = bet_leg2 c o1 o2 * o2 - c := by
  have hsum : o1 + o2 ≠ 0 := by positivity
  constructor
  · unfold bet_leg1 bet_leg2
    field_simp
    ring
  · unfold bet_leg1 bet_leg2
    field_simp
    ring

/-- Witness for C4 at the documented example odds 2.41 and 2.05 with
capital 1000. -/
theorem stake_sizing_equal_profit_witness :
    bet_leg1 1000 (241/100) (205/100) + bet_leg2 1000 (241/100) (205/100) = 1000 ∧
    bet_leg1 1000 (241/100) (205/100) * (241/100) - 1000 =
      bet_leg2 1000 (241/100) (205/100) * (205/100) - 1000 :=
  stake_sizing_equal_profit 1000 (241/100) (205/100) (by norm_num) (by norm_num)
    (by norm_num)

/-! ## Probability engine: per-event detection core

From src/probability_engine.py, ProbabilityEngine.detect_value_opportunities,
lines 283-456: after both sides of a matched event have resolved to team
probabilities, the engine skips the event if any of the four probabilities is
falsy (zero), otherwise forms the two opposite-outcome pairing sums, picks the
branch with the strictly smaller sum (the team2 branch on a tie), emits an
arbitrage opportunity when that sum is below 1 and the derived profit meets
the configured minimum, and evaluates value edges only when no arbitrage was
found. -/

inductive Team
  | team1
  | team2
deriving DecidableEq

inductive Detected
  | arbitrage (team : Team) (total_prob : ℚ) (profit_pct : ℚ)
  | valueEdge (team : Team) (edge_pct : ℚ) (better_platform : String)
deriving DecidableEq

def Detected.isArb : Detected → Bool
  | .arbitrage _ _ _ => true
  | .valueEdge _ _ _ => false

structure EventProbs where
  pm_prob_team1 : ℚ
  pm_prob_team2 : ℚ
  cb_prob_team1 : ℚ
  cb_prob_team2 : ℚ
deriving DecidableEq

/-- The branch condition at line 320: total_prob_team1 < total_prob_team2. -/
def chosen_total_prob (p : EventProbs) : ℚ :=
  if p.pm_prob_team1 + p.cb_prob_team2 < p.pm_prob_team2 + p.cb_prob_team1 then
    p.pm_prob_team1 + p.cb_prob_team2
  else
    p.pm_prob_team2 + p.cb_prob_team1

def chosen_arb_team (p : EventProbs) : Team :=
  if p.pm_prob_team1 + p.cb_prob_team2 < p.pm_prob_team2 + p.cb_prob_team1 then
    Team.team1
  else
    Team.team2

/-- profit_pct = ((1.0 - total_prob) / total_prob) * 100, line 341. -/
def arb_profit_pct (p : EventProbs) : ℚ :=
  ((1 - chosen_total_prob p) / chosen_total_prob p) * 100

/-- The arbitrage block, lines 339-387: emit one arbitrage opportunity when
total_prob < 1.0 and profit_pct >= min_arbitrage_profit. -/
def arb_opps (min_arbitrage_profit : ℚ) (p : EventProbs) : List Detected :=
  if chosen_total_prob p < 1 then
    if min_arbitrage_profit ≤ arb_profit_pct p then
      [Detected.arbitrage (chosen_arb_team p) (chosen_total_prob p) (arb_profit_pct p)]
    else []
  else []

/-- The value-edge block, lines 391-456: each team independently emits a
value edge when |pm_prob - cb_prob| >= min_value_edge, with
better_platform = polymarket when the edge is positive, cloudbet otherwise. -/
def value_edges (min_value_edge : ℚ) (p : EventProbs) : List Detected :=
  (if min_value_edge ≤ |p.pm_prob_team1 - p.cb_prob_team1| then
    [Detected.valueEdge Team.team1 ((p.pm_prob_team1 - p.cb_prob_team1) * 100)
      (if 0 < p.pm_prob_team1 - p.cb_prob_team1 then "polymarket" else "cloudbet")]
  else []) ++
  (if min_value_edge ≤ |p.pm_prob_team2 - p.cb_prob_team2| then
    [Detected.valueEdge Team.team2 ((p.pm_prob_team2 - p.cb_prob_team2) * 100)
      (if 0 < p.pm_prob_team2 - p.cb_prob_team2 then "polymarket" else "cloudbet")]
  else [])

/-- One iteration of the detection loop for a fully resolved event: skip if
any probability is falsy (line 305), else the arbitrage block followed by the
value-edge block, the latter only when no arbitrage was found (line 391). -/
def detect_value_opportunities_event (min_arbitrage_profit min_value_edge : ℚ)
    (p : EventProbs) : List Detected :=
  if p.pm_prob_team1 = 0 ∨ p.pm_prob_team2 = 0 ∨
      p.cb_prob_team1 = 0 ∨ p.cb_prob_team2 = 0 then
    []
  else
    arb_opps min_arbitrage_profit p ++
      (if arb_opps min_arbitrage_profit p = [] then value_edges min_value_edge p else [])

def pm_prob_of (p : EventProbs) : Team → ℚ
  | .team1 => p.pm_prob_team1
  | .team2 => p.pm_prob_team2

def cb_prob_of (p : EventProbs) : Team → ℚ
  | .team1 => p.cb_prob_team1
  | .team2 => p.cb_prob_team2

theorem value_edges_shape (mv : ℚ) (p : EventProbs) (d : Detected)
    (hd : d ∈ value_edges mv p) : ∃ t e plat, d = Detected.valueEdge t e plat := by
  unfold value_edges at hd
  rcases List.mem_append.1 hd with h | h
  · split at h
    · exact ⟨_, _, _, List.mem_singleton.1 h⟩
    · simp at h
  · split at h
    · exact ⟨_, _, _, List.mem_singleton.1 h⟩
    · simp at h

theorem arb_opps_shape (ma : ℚ) (p : EventProbs) (d : Detected)
    (hd : d ∈ arb_opps ma p) :
    d = Detected.arbitrage (chosen_arb_team p) (chosen_total_prob p) (arb_profit_pct p) := by
  unfold arb_opps at hd
  split at hd
  · split at hd
    · exact List.mem_singleton.1 hd
    · simp at hd
  · simp at hd

theorem value_edges_mem (mv : ℚ) (p : EventProbs) (t : Team) (e : ℚ) (plat : String)
    (h : Detected.valueEdge t e plat ∈ value_edges mv p) :
    (t = Team.team1 ∧
      plat = (if 0 < p.pm_prob_team1 - p.cb_prob_team1 then "polymarket" else "cloudbet")) ∨
    (t = Team.team2 ∧
      plat = (if 0 < p.pm_prob_team2 - p.cb_prob_team2 then "polymarket" else "cloudbet")) := by
  unfold value_edges at h
  rcases List.mem_append.1 h with h | h
  · split at h
    · have := List.mem_singleton.1 h
      injection this with h1 h2 h3
      exact Or.inl ⟨h1, h3⟩
    · simp at h
  · split at h
    · have := List.mem_singleton.1 h
      injection this with h1 h2 h3
      exact Or.inr ⟨h1, h3⟩
    · simp at h

theorem chosen_total_prob_eq_min (p : EventProbs) :
    chosen_total_prob p =
      min (p.pm_prob_team1 + p.cb_prob_team2) (p.pm_prob_team2 + p.cb_prob_team1) := by
  unfold chosen_total_prob
  rcases lt_or_le (p.pm_prob_team1 + p.cb_prob_team2) (p.pm_prob_team2 + p.cb_prob_team1)
    with h | h
  · rw [if_pos h, min_eq_left h.le]
  · rw [if_neg (not_lt.2 h), min_eq_right h]

/-- C2: for every matched event whose four probabilities all resolved
(positive), at most one arbitrage opportunity is emitted; one is emitted
exactly when the lower of the two opposite-outcome pairing sums is below 1 and
the derived profit ((1/sum) - 1) * 100 meets the configured minimum; every
emitted arbitrage carries that lower sum, that profit formula, and the pairing
attaining the lower sum. -/
theorem arbitrage_detection_spec (ma mv : ℚ) (p : EventProbs)
    (h1 : 0 < p.pm_prob_team1) (h2 : 0 < p.pm_prob_team2)
    (h3 : 0 < p.cb_prob_team1) (h4 : 0 < p.cb_prob_team2) :
    ((detect_value_opportunities_event ma mv p).filter Detected.isArb).length ≤ 1 ∧
    ((∃ t s pr, Detected.arbitrage t s pr ∈ detect_value_opportunities_event ma mv p) ↔
      (min (p.pm_prob_team1 + p.cb_prob_team2) (p.pm_prob_team2 + p.cb_prob_team1) < 1 ∧
        ma ≤ (1 / min (p.pm_prob_team1 + p.cb_prob_team2) (p.pm_prob_team2 + p.cb_prob_team1)
          - 1) * 100)) ∧
    (∀ t s pr, Detected.arbitrage t s pr ∈ detect_value_opportunities_event ma mv p →
      s = min (p.pm_prob_team1 + p.cb_prob_team2) (p.pm_prob_team2 + p.cb_prob_team1) ∧
      pr = (1 / min (p.pm_prob_team1 + p.cb_prob_team2) (p.pm_prob_team2 + p.cb_prob_team1)
        - 1) * 100 ∧
      t = (if p.pm_prob_team1 + p.cb_prob_team2 < p.pm_prob_team2 + p.cb_prob_team1 then
        Team.team1 else Team.team2)) := by
  have hz : ¬(p.pm_prob_team1 = 0 ∨ p.pm_prob_team2 = 0 ∨
      p.cb_prob_team1 = 0 ∨ p.cb_prob_team2 = 0) := by
    push_neg
    exact ⟨h1.ne', h2.ne', h3.ne', h4.ne'⟩
  have hs0 : 0 < chosen_total_prob p := by
    rw [chosen_total_prob_eq_min]
    exact lt_min (by positivity) (by positivity)
  have hform : arb_profit_pct p = (1 / chosen_total_prob p - 1) * 100 := by
    unfold arb_profit_pct
    rw [sub_div, div_self hs0.ne']
  have hdet : detect_value_opportunities_event ma mv p =
      arb_opps ma p ++ (if arb_opps ma p = [] then value_edges mv p else []) := by
    unfold detect_value_opportunities_event
    rw [if_neg hz]
  rw [← chosen_total_prob_eq_min, ← hform]
  by_cases hc1 : chosen_total_prob p < 1
  · by_cases hc2 : ma ≤ arb_profit_pct p
    · have harb : arb_opps ma p =
          [Detected.arbitrage (chosen_arb_team p) (chosen_total_prob p) (arb_profit_pct p)] := by
        unfold arb_opps
        rw [if_pos hc1, if_pos hc2]
      have hdet2 : detect_value_opportunities_event ma mv p =
          [Detected.arbitrage (chosen_arb_team p) (chosen_total_prob p) (arb_profit_pct p)] := by
        rw [hdet, harb]
        simp
      refine ⟨?_, ?_, ?_⟩
      · rw [hdet2]
        simp [Detected.isArb]
      · constructor
        · intro _
          exact ⟨hc1, hc2⟩
        · intro _
          exact ⟨chosen_arb_team p, chosen_total_prob p, arb_profit_pct p, by
            rw [hdet2]; exact List.mem_singleton_self _⟩
      · intro t s pr hmem
        rw [hdet2] at hmem
        have heq := List.mem_singleton.1 hmem
        injection heq with e1 e2 e3
        exact ⟨e2, e3, by rw [e1]; rfl⟩
    · have harb : arb_opps ma p = [] := by
        unfold arb_opps
        rw [if_pos hc1, if_neg hc2]
      have hdet2 : detect_value_opportunities_event ma mv p = value_edges mv p := by
        rw [hdet, harb]
        simp
      refine ⟨?_, ?_, ?_⟩
      · rw [hdet2, List.filter_eq_nil_iff.2]
        · simp
        · intro a ha
          obtain ⟨t, e, pl, rfl⟩ := value_edges_shape mv p a ha
          simp [Detected.isArb]
      · constructor
        · rintro ⟨t, s, pr, hmem⟩
          rw [hdet2] at hmem
          obtain ⟨t2, e2, pl2, hshape⟩ := value_edges_shape mv p _ hmem
          exact absurd hshape (by simp)
        · rintro ⟨_, hma⟩
          exact absurd hma hc2
      · intro t s pr hmem
        rw [hdet2] at hmem
        obtain ⟨t2, e2, pl2, hshape⟩ := value_edges_shape mv p _ hmem
        exact absurd hshape (by simp)
  · have harb : arb_opps ma p = [] := by
      unfold arb_opps
      rw [if_neg hc1]
    have hdet2 : detect_value_opportunities_event ma mv p = value_edges mv p := by
      rw [hdet, harb]
      simp
    refine ⟨?_, ?_, ?_⟩
    · rw [hdet2, List.filter_eq_nil_iff.2]
      · simp
      · intro a ha
        obtain ⟨t, e, pl, rfl⟩ := value_edges_shape mv p a ha
        simp [Detected.isArb]
    · constructor
      · rintro ⟨t, s, pr, hmem⟩
        rw [hdet2] at hmem
        obtain ⟨t2, e2, pl2, hshape⟩ := value_edges_shape mv p _ hmem
        exact absurd hshape (by simp)
      · rintro ⟨hlt, _⟩
        exact absurd hlt hc1
    · intro t s pr hmem
      rw [hdet2] at hmem
      obtain ⟨t2, e2, pl2, hshape⟩ := value_edges_shape mv p _ hmem
      exact absurd hshape (by simp)

/-- Witness for C2 at a concrete resolved event with an arbitrage
(probabilities 2/5, 3/5 on the exchange and 14/25, 12/25 on the sportsbook). -/
theorem arbitrage_detection_spec_witness :
    ((detect_value_opportunities_event (1/2) (1/20)
      ⟨2/5, 3/5, 14/25, 12/25⟩).filter Detected.isArb).length ≤ 1 :=
  (arbitrage_detection_spec (1/2) (1/20) ⟨2/5, 3/5, 14/25, 12/25⟩
    (by norm_num) (by norm_num) (by norm_num) (by norm_num)).1

theorem detect_cex_eval :
    detect_value_opportunities_event (1/2) (1/20) ⟨3/5, 1/2, 1/2, 3/5⟩ =
      [Detected.valueEdge Team.team1 10 "polymarket",
       Detected.valueEdge Team.team2 (-10) "cloudbet"] := by
  have habs1 : |(3/5 : ℚ) - 1/2| = 1/10 := by
    rw [abs_of_nonneg] <;> norm_num
  have habs2 : |(1/2 : ℚ) - 3/5| = 1/10 := by
    rw [abs_of_nonpos] <;> norm_num
  have habs3 : |(1/10 : ℚ)| = 1/10 := abs_of_nonneg (by norm_num)
  norm_num [detect_value_opportunities_event, arb_opps, value_edges,
    chosen_total_prob, chosen_arb_team, arb_profit_pct, habs1, habs2, habs3]

/-- C7 counterexample: at an event with exchange probabilities (3/5, 1/2) and
sportsbook probabilities (1/2, 3/5), no arbitrage exists and team1 emits a
value edge naming polymarket as the better platform, even though polymarket
quotes the HIGHER implied probability for team1 (3/5 versus the sportsbook's
1/2), i.e. the worse price. -/
theorem value_edge_better_platform_cex :
    detect_value_opportunities_event (1/2) (1/20) ⟨3/5, 1/2, 1/2, 3/5⟩ =
      [Detected.valueEdge Team.team1 10 "polymarket",
       Detected.valueEdge Team.team2 (-10) "cloudbet"] ∧
    (1/2 : ℚ) < 3/5 :=
  ⟨detect_cex_eval, by norm_num⟩

/-- C7 (amended): whenever a value edge is emitted, the venue it names as the
better platform is the venue whose implied probability for that competitor is
HIGHER (polymarket exactly when the exchange probability strictly exceeds the
sportsbook probability, cloudbet otherwise). -/
theorem value_edge_names_higher_prob (ma mv : ℚ) (p : EventProbs) (t : Team) (e : ℚ)
    (plat : String)
    (hmem : Detected.valueEdge t e plat ∈ detect_value_opportunities_event ma mv p) :
    (plat = "polymarket" ∧ cb_prob_of p t < pm_prob_of p t) ∨
    (plat = "cloudbet" ∧ pm_prob_of p t ≤ cb_prob_of p t) := by
  unfold detect_value_opportunities_event at hmem
  split at hmem
  · simp at hmem
  · rcases List.mem_append.1 hmem with h | h
    · have hsh := arb_opps_shape ma p _ h
      exact absurd hsh (by simp)
    · split at h
      · rcases value_edges_mem mv p t e plat h with ⟨ht, hp⟩ | ⟨ht, hp⟩
        · subst ht
          by_cases hpos : 0 < p.pm_prob_team1 - p.cb_prob_team1
          · rw [if_pos hpos] at hp
            exact Or.inl ⟨hp, by simpa [pm_prob_of, cb_prob_of] using sub_pos.1 hpos⟩
          · rw [if_neg hpos] at hp
            exact Or.inr ⟨hp, by
              simpa [pm_prob_of, cb_prob_of] using sub_nonpos.1 (not_lt.1 hpos)⟩
        · subst ht
          by_cases hpos : 0 < p.pm_prob_team2 - p.cb_prob_team2
          · rw [if_pos hpos] at hp
            exact Or.inl ⟨hp, by simpa [pm_prob_of, cb_prob_of] using sub_pos.1 hpos⟩
          · rw [if_neg hpos] at hp
            exact Or.inr ⟨hp, by
              simpa [pm_prob_of, cb_prob_of] using sub_nonpos.1 (not_lt.1 hpos)⟩
      · simp at h

/-- Witness for the amended C7 at the concrete event of the counterexample:
the team1 value edge names polymarket, the venue with the higher implied
probability. -/
theorem value_edge_names_higher_prob_witness :
    ("polymarket" = "polymarket" ∧
      cb_prob_of ⟨3/5, 1/2, 1/2, 3/5⟩ Team.team1 <
        pm_prob_of ⟨3/5, 1/2, 1/2, 3/5⟩ Team.team1) ∨
    ("polymarket" = "cloudbet" ∧
      pm_prob_of ⟨3/5, 1/2, 1/2, 3/5⟩ Team.team1 ≤
        cb_prob_of ⟨3/5, 1/2, 1/2, 3/5⟩ Team.team1) :=
  value_edge_names_higher_prob (1/2) (1/20) ⟨3/5, 1/2, 1/2, 3/5⟩ Team.team1 10
    "polymarket" (by rw [detect_cex_eval]; exact List.mem_cons_self _ _)

/-! ## Risk gate and execution engine

From src/autobet.py (AutobetEngine) and src/config_loader.py (AutobetConfig,
BankrollConfig). The pydantic model constrains min_profit_threshold >= 0,
max_bets_per_day >= 0 (int) and daily_loss_limit >= 0. The opportunity dict is
modelled by the fields the engine reads and writes; its `type` key is the
field `otype`. -/

structure AutobetConfig where
  enabled : Bool
  min_profit_threshold : ℚ
  max_bets_per_day : ℕ
  max_stake_fraction : ℚ
  daily_loss_limit : ℚ
  real_execution : Bool
deriving DecidableEq

structure BankrollConfig where
  amount : ℚ
deriving DecidableEq

structure RiskState where
  today : ℕ
  bets_today : ℕ
  loss_today : ℚ
deriving DecidableEq

structure Opportunity where
  market_name : String
  otype : String
  profit_percentage : ℚ
  total_capital : ℚ
  bet_amount_a : ℚ
  bet_amount_b : ℚ
  guaranteed_profit : ℚ
  odds_a : ℚ
  odds_b : ℚ
deriving DecidableEq

/-- AutobetEngine._reset_daily_counters_if_needed, lines 52-57. -/
def reset_daily_counters_if_needed (now : ℕ) (s : RiskState) : RiskState :=
  if now ≠ s.today then ⟨now, 0, 0⟩ else s

/-- AutobetEngine.should_autobet, lines 59-90: enable flag, profit threshold,
arbitrage-only type filter, daily bet cap (truthiness of max_bets_per_day, so
0 disables it), daily loss cap (guarded by daily_loss_limit > 0, so 0
disables it). Returns the decision together with the risk state after the
day-rollover reset. -/
def should_autobet (cfg : AutobetConfig) (now : ℕ) (s : RiskState) (opp : Opportunity) :
    Bool × RiskState :=
  if cfg.enabled = false then (false, s)
  else
    let s2 := reset_daily_counters_if_needed now s
    if opp.profit_percentage < cfg.min_profit_threshold then (false, s2)
    else if opp.otype ≠ "arbitrage" then (false, s2)
    else if cfg.max_bets_per_day ≠ 0 ∧ cfg.max_bets_per_day ≤ s2.bets_today then (false, s2)
    else if 0 < cfg.daily_loss_limit ∧ s2.loss_today ≤ -cfg.daily_loss_limit then (false, s2)
    else (true, s2)

/-- Observable external effects of one autobet attempt: the sportsbook
(Cloudbet) leg call, the exchange (Polymarket) leg call, and the store update
mark_bet_placed. -/
inductive Effect
  | cbLeg
  | pmLeg
  | markBetPlaced
deriving DecidableEq

/-- Environment of AutobetEngine._execute_real_bets: whether each executor
could be initialised, whether the venue identifiers (Polymarket token id,
Cloudbet selection id) resolved, and the truthiness of each leg call's
response. -/
structure ExecEnv where
  pm_executor : Bool
  cb_executor : Bool
  has_token_id_a : Bool
  has_selection_id_b : Bool
  cb_place_result : Bool
  pm_place_result : Bool
deriving DecidableEq

/-- AutobetEngine._execute_real_bets, lines 150-280: missing executors or
identifiers abort before any call; the Cloudbet leg is placed first and a
falsy response aborts the hedge (line 262); after a successful Cloudbet leg
the Polymarket order is attempted and the function returns True whether or
not it succeeds (lines 271 and 274). -/
def execute_real_bets (env : ExecEnv) : Bool × List Effect :=
  if env.pm_executor = false ∨ env.cb_executor = false then (false, [])
  else if env.has_token_id_a = false then (false, [])
  else if env.has_selection_id_b = false then (false, [])
  else if env.cb_place_result = false then (false, [Effect.cbLeg])
  else (true, [Effect.cbLeg, Effect.pmLeg])

/-- The in-place scaling of autobet.py lines 113-117: both bet amounts and
the guaranteed profit multiplied by scale = max_stake / total_capital, and
total_capital set to max_stake. -/
def scale_opportunity (opp : Opportunity) (max_stake : ℚ) : Opportunity :=
  ⟨opp.market_name, opp.otype, opp.profit_percentage, max_stake,
    opp.bet_amount_a * (max_stake / opp.total_capital),
    opp.bet_amount_b * (max_stake / opp.total_capital),
    opp.guaranteed_profit * (max_stake / opp.total_capital),
    opp.odds_a, opp.odds_b⟩

/-- Lines 139-142: increment the daily bet counter; a negative guaranteed
profit accrues to the daily loss. -/
def update_risk_after_bet (s : RiskState) (gp : ℚ) : RiskState :=
  ⟨s.today, s.bets_today + 1, if gp < 0 then s.loss_today + gp else s.loss_today⟩

/-- AutobetEngine.autobet_opportunity, lines 92-148: risk gate, stake cap
(mutating the opportunity dict in place), optional real execution (early
return when it fails to start), then mark_bet_placed and counter updates.
Returns the caller-visible opportunity value, the list of external effects in
order, and the final risk state. -/
def autobet_opportunity (cfg : AutobetConfig) (bank : BankrollConfig) (env : ExecEnv)
    (now : ℕ) (s : RiskState) (opp : Opportunity) :
    Opportunity × List Effect × RiskState :=
  let res := should_autobet cfg now s opp
  if res.1 = false then (opp, [], res.2)
  else
    let max_stake := bank.amount * cfg.max_stake_fraction
    let opp2 := if 0 < max_stake ∧ max_stake < opp.total_capital then
        scale_opportunity opp max_stake
      else opp
    if cfg.real_execution then
      let er := execute_real_bets env
      if er.1 = false then (opp2, er.2, res.2)
      else (opp2, er.2 ++ [Effect.markBetPlaced],
        update_risk_after_bet res.2 opp2.guaranteed_profit)
    else (opp2, [Effect.markBetPlaced], update_risk_after_bet res.2 opp2.guaranteed_profit)

theorem execute_real_bets_cases (env : ExecEnv) :
    execute_real_bets env = (false, []) ∨
    execute_real_bets env = (false, [Effect.cbLeg]) ∨
    execute_real_bets env = (true, [Effect.cbLeg, Effect.pmLeg]) := by
  unfold execute_real_bets
  split_ifs
  · exact Or.inl rfl
  · exact Or.inl rfl
  · exact Or.inl rfl
  · exact Or.inr (Or.inl rfl)
  · exact Or.inr (Or.inr rfl)

theorem execute_real_bets_cb_fail (env : ExecEnv) (h : env.cb_place_result = false) :
    execute_real_bets env = (false, []) ∨
    execute_real_bets env = (false, [Effect.cbLeg]) := by
  unfold execute_real_bets
  rw [h]
  split_ifs with h1 h2 h3 h4
  · exact Or.inl rfl
  · exact Or.inl rfl
  · exact Or.inl rfl
  · exact Or.inr rfl
  · exact absurd rfl h4

/-- C1: under real execution, if the Cloudbet (venue-B) leg call returns
failure then the Polymarket (venue-A) leg is never invoked and the store
never receives mark_bet_placed for that opportunity; moreover, whenever the
venue-A leg does occur in the effect trace, a venue-B leg occurs strictly
before it. -/
theorem autobet_hedge_abort (cfg : AutobetConfig) (bank : BankrollConfig) (env : ExecEnv)
    (now : ℕ) (s : RiskState) (opp : Opportunity)
    (hre : cfg.real_execution = true) :
    (env.cb_place_result = false →
      Effect.pmLeg ∉ (autobet_opportunity cfg bank env now s opp).2.1 ∧
      Effect.markBetPlaced ∉ (autobet_opportunity cfg bank env now s opp).2.1) ∧
    (Effect.pmLeg ∈ (autobet_opportunity cfg bank env now s opp).2.1 →
      ∃ pre post, (autobet_opportunity cfg bank env now s opp).2.1 =
        pre ++ Effect.pmLeg :: post ∧ Effect.cbLeg ∈ pre) := by
  by_cases hsb : (should_autobet cfg now s opp).1 = false
  · constructor
    · intro _
      constructor
      · simp [autobet_opportunity, hsb]
      · simp [autobet_opportunity, hsb]
    · intro hmem
      simp [autobet_opportunity, hsb] at hmem
  · rcases execute_real_bets_cases env with hc | hc | hc
    · constructor
      · intro _
        constructor
        · simp [autobet_opportunity, hsb, hre, hc]
        · simp [autobet_opportunity, hsb, hre, hc]
      · intro hmem
        simp [autobet_opportunity, hsb, hre, hc] at hmem
    · constructor
      · intro _
        constructor
        · simp [autobet_opportunity, hsb, hre, hc]
        · simp [autobet_opportunity, hsb, hre, hc]
      · intro hmem
        simp [autobet_opportunity, hsb, hre, hc] at hmem
    · constructor
      · intro hcb
        rcases execute_real_bets_cb_fail env hcb with h2 | h2 <;> simp [h2] at hc
      · intro _
        refine ⟨[Effect.cbLeg], [Effect.markBetPlaced], ?_, ?_⟩
        · simp [autobet_opportunity, hsb, hre, hc]
        · simp

/-- Witness for C1: a concrete configured engine with real execution enabled,
both executors and both identifiers present, and a failing Cloudbet leg: the
Polymarket leg and the store update never happen. -/
theorem autobet_hedge_abort_witness :
    Effect.pmLeg ∉ (autobet_opportunity ⟨true, 0, 0, 0, 0, true⟩ ⟨100⟩
      ⟨true, true, true, true, false, true⟩ 0 ⟨0, 0, 0⟩
      ⟨"m", "arbitrage", 5, 100, 50, 50, 5, 2, 2⟩).2.1 ∧
    Effect.markBetPlaced ∉ (autobet_opportunity ⟨true, 0, 0, 0, 0, true⟩ ⟨100⟩
      ⟨true, true, true, true, false, true⟩ 0 ⟨0, 0, 0⟩
      ⟨"m", "arbitrage", 5, 100, 50, 50, 5, 2, 2⟩).2.1 :=
  (autobet_hedge_abort ⟨true, 0, 0, 0, 0, true⟩ ⟨100⟩
    ⟨true, true, true, true, false, true⟩ 0 ⟨0, 0, 0⟩
    ⟨"m", "arbitrage", 5, 100, 50, 50, 5, 2, 2⟩ rfl).1 rfl

/-- C3: the admission gate approves exactly when the enable flag is set, the
profit meets the threshold, the type is exactly arbitrage, the daily bet cap
holds (0 disabling it) and the daily loss cap holds (0 disabling it); in
particular value edges are never approved, and with max_bets_per_day = 1 a
second eligible arbitrage on the same day is rejected. -/
theorem should_autobet_characterization (cfg : AutobetConfig) (now : ℕ) (s : RiskState)
    (opp : Opportunity) (hll : 0 ≤ cfg.daily_loss_limit) :
    ((should_autobet cfg now s opp).1 = true ↔
      (cfg.enabled = true ∧
        cfg.min_profit_threshold ≤ opp.profit_percentage ∧
        opp.otype = "arbitrage" ∧
        (cfg.max_bets_per_day = 0 ∨
          (reset_daily_counters_if_needed now s).bets_today < cfg.max_bets_per_day) ∧
        (cfg.daily_loss_limit = 0 ∨
          -cfg.daily_loss_limit < (reset_daily_counters_if_needed now s).loss_today))) ∧
    (opp.otype = "value_edge" → (should_autobet cfg now s opp).1 = false) ∧
    (cfg.max_bets_per_day = 1 → 1 ≤ (reset_daily_counters_if_needed now s).bets_today →
      (should_autobet cfg now s opp).1 = false) := by
  have hiff : (should_autobet cfg now s opp).1 = true ↔
      (cfg.enabled = true ∧
        cfg.min_profit_threshold ≤ opp.profit_percentage ∧
        opp.otype = "arbitrage" ∧
        (cfg.max_bets_per_day = 0 ∨
          (reset_daily_counters_if_needed now s).bets_today < cfg.max_bets_per_day) ∧
        (cfg.daily_loss_limit = 0 ∨
          -cfg.daily_loss_limit < (reset_daily_counters_if_needed now s).loss_today)) := by
    simp only [should_autobet]
    by_cases he : cfg.enabled = false
    · simp [he]
    · have he2 : cfg.enabled = true := by
        cases h : cfg.enabled
        · exact absurd h he
        · rfl
      rw [if_neg he]
      split_ifs with hp ht hb hl
      · exact iff_of_false (by simp)
          (by rintro ⟨-, hc, -, -, -⟩; exact absurd hc (not_le.2 hp))
      · exact iff_of_false (by simp)
          (by rintro ⟨-, -, hc, -, -⟩; exact ht hc)
      · refine iff_of_false (by simp) ?_
        rintro ⟨-, -, -, hc, -⟩
        rcases hc with h | h
        · exact hb.1 h
        · exact absurd hb.2 (not_le.2 h)
      · refine iff_of_false (by simp) ?_
        rintro ⟨-, -, -, -, hc⟩
        rcases hc with h | h
        · exact hl.1.ne' h
        · exact absurd hl.2 (not_le.2 h)
      · have c4 : cfg.max_bets_per_day = 0 ∨
            (reset_daily_counters_if_needed now s).bets_today < cfg.max_bets_per_day := by
          rcases not_and_or.1 hb with h | h
          · exact Or.inl (not_not.1 h)
          · exact Or.inr (not_le.1 h)
        have c5 : cfg.daily_loss_limit = 0 ∨
            -cfg.daily_loss_limit < (reset_daily_counters_if_needed now s).loss_today := by
          rcases not_and_or.1 hl with h | h
          · exact Or.inl (le_antisymm (not_lt.1 h) hll)
          · exact Or.inr (not_le.1 h)
        exact iff_of_true rfl ⟨he2, not_lt.1 hp, not_not.1 ht, c4, c5⟩
  refine ⟨hiff, ?_, ?_⟩
  · intro hve
    cases h : (should_autobet cfg now s opp).1
    · rfl
    · obtain ⟨-, -, harb, -, -⟩ := hiff.1 h
      rw [hve] at harb
      exact absurd harb (by decide)
  · intro hm1 hb1
    cases h : (should_autobet cfg now s opp).1
    · rfl
    · obtain ⟨-, -, -, hc4, -⟩ := hiff.1 h
      rw [hm1] at hc4
      rcases hc4 with h0 | hlt
      · exact absurd h0 (by norm_num)
      · omega

/-- Witness for C3: with the gate otherwise wide open, a value-edge
opportunity is rejected. -/
theorem should_autobet_characterization_witness :
    (should_autobet ⟨true, 1, 20, 1/4, 0, false⟩ 0 ⟨0, 0, 0⟩
      ⟨"m", "value_edge", 5, 100, 50, 50, 5, 2, 2⟩).1 = false :=
  (should_autobet_characterization ⟨true, 1, 20, 1/4, 0, false⟩ 0 ⟨0, 0, 0⟩
    ⟨"m", "value_edge", 5, 100, 50, 50, 5, 2, 2⟩ (le_refl 0)).2.1 rfl

/-- C9 counterexample: with the engine enabled, real execution off and a
bankroll cap of 100 * 1/4 = 25 below the opportunity's 100 of required
capital, autobet_opportunity returns the opportunity with bet_amount_a scaled
from 50 down to 25/2: the caller-visible Opportunity value is mutated. -/
theorem autobet_mutates_opportunity_cex :
    (autobet_opportunity ⟨true, 0, 0, 1/4, 0, false⟩ ⟨100⟩
      ⟨false, false, false, false, false, false⟩ 0 ⟨0, 0, 0⟩
      ⟨"m", "arbitrage", 5, 100, 50, 50, 5, 2, 2⟩).1.bet_amount_a = 25/2 ∧
    (⟨"m", "arbitrage", 5, 100, 50, 50, 5, 2, 2⟩ : Opportunity).bet_amount_a = 50 ∧
    (25/2 : ℚ) ≠ 50 := by
  refine ⟨?_, rfl, by norm_num⟩
  norm_num [autobet_opportunity, should_autobet, reset_daily_counters_if_needed,
    scale_opportunity]

/-- C9 (amended): the caller-visible opportunity is returned unchanged unless
the stake cap fires; when the gate approves and
0 < bankroll * max_stake_fraction < total_capital, the opportunity is
returned with both bet amounts and the guaranteed profit scaled by
max_stake / total_capital and total_capital replaced by the cap — the
mutation is visible to the caller even when execution later aborts. -/
theorem autobet_opportunity_result_spec (cfg : AutobetConfig) (bank : BankrollConfig)
    (env : ExecEnv) (now : ℕ) (s : RiskState) (opp : Opportunity) :
    (¬((should_autobet cfg now s opp).1 = true ∧
        0 < bank.amount * cfg.max_stake_fraction ∧
        bank.amount * cfg.max_stake_fraction < opp.total_capital) →
      (autobet_opportunity cfg bank env now s opp).1 = opp) ∧
    (((should_autobet cfg now s opp).1 = true ∧
        0 < bank.amount * cfg.max_stake_fraction ∧
        bank.amount * cfg.max_stake_fraction < opp.total_capital) →
      (autobet_opportunity cfg bank env now s opp).1 =
        scale_opportunity opp (bank.amount * cfg.max_stake_fraction)) := by
  by_cases hsb : (should_autobet cfg now s opp).1 = false
  · constructor
    · intro _
      simp [autobet_opportunity, hsb]
    · rintro ⟨h, -⟩
      rw [hsb] at h
      exact absurd h (by simp)
  · have htrue : (should_autobet cfg now s opp).1 = true := by
      cases h : (should_autobet cfg now s opp).1
      · exact absurd h hsb
      · rfl
    have hres : (autobet_opportunity cfg bank env now s opp).1 =
        (if 0 < bank.amount * cfg.max_stake_fraction ∧
            bank.amount * cfg.max_stake_fraction < opp.total_capital then
          scale_opportunity opp (bank.amount * cfg.max_stake_fraction)
        else opp) := by
      simp only [autobet_opportunity, hsb]
      split_ifs <;> first
      | rfl
      | contradiction
    constructor
    · intro hnot
      rw [hres, if_neg]
      intro hcap
      exact hnot ⟨htrue, hcap⟩
    · intro hpos
      rw [hres, if_pos hpos.2]

/-- Witness for the amended C9 at the counterexample configuration: the
returned opportunity equals the scaled opportunity. -/
theorem autobet_opportunity_result_spec_witness :
    (autobet_opportunity ⟨true, 0, 0, 1/4, 0, false⟩ ⟨100⟩
      ⟨false, false, false, false, false, false⟩ 0 ⟨0, 0, 0⟩
      ⟨"m", "arbitrage", 5, 100, 50, 50, 5, 2, 2⟩).1 =
      scale_opportunity ⟨"m", "arbitrage", 5, 100, 50, 50, 5, 2, 2⟩ (100 * (1/4)) :=
  (autobet_opportunity_result_spec ⟨true, 0, 0, 1/4, 0, false⟩ ⟨100⟩
    ⟨false, false, false, false, false, false⟩ 0 ⟨0, 0, 0⟩
    ⟨"m", "arbitrage", 5, 100, 50, 50, 5, 2, 2⟩).2
    ⟨by norm_num [should_autobet, reset_daily_counters_if_needed],
      by norm_num, by norm_num⟩

/-! ## Dedup store

From src/database.py (ArbitrageDatabase). The arbitrage_events table is a
list of rows in timestamp (insertion) order; ORDER BY timestamp DESC LIMIT 1
is therefore the last matching row. The SHA-256 opportunity hash of
_generate_opportunity_hash is injective on its input string, so hash equality
is modelled as equality of the hashed tuple, with the .6f formatting of the
odds modelled by rounding to 6 decimal places (half-way cases round half-up
here; no claim depends on them). -/

def round6 (q : ℚ) : ℚ := (round (q * 1000000) : ℤ) / 1000000

structure DBRow where
  id : ℕ
  market_name : String
  platform_a : String
  platform_b : String
  odds_a : ℚ
  odds_b : ℚ
  profit_percentage : ℚ
  bet_amount_a : ℚ
  bet_amount_b : ℚ
  total_capital : ℚ
  guaranteed_profit : ℚ
  alert_sent : Bool
  bet_placed : Bool
  realized_pnl : ℚ
deriving DecidableEq

structure DBState where
  rows : List DBRow
  next_id : ℕ
deriving DecidableEq

/-- The stored opportunity_hash of a row equals the hash of the query
arguments. -/
def same_hash (r : DBRow) (market_name platform_a platform_b : String)
    (odds_a odds_b : ℚ) : Bool :=
  decide (r.market_name = market_name ∧ r.platform_a = platform_a ∧
    r.platform_b = platform_b ∧ round6 r.odds_a = round6 odds_a ∧
    round6 r.odds_b = round6 odds_b)

/-- The WHERE clause of the similar-opportunity query: same market and
platform pair. -/
def same_pair (r : DBRow) (market_name platform_a platform_b : String) : Bool :=
  decide (r.market_name = market_name ∧ r.platform_a = platform_a ∧
    r.platform_b = platform_b)

/-- ArbitrageDatabase.is_duplicate, lines 108-171: exact-hash lookup first
(placed row means duplicate, unplaced row means eligible for retry); when no
exact-hash row exists, the most recent row for the same market and platform
pair counts as a duplicate when both odds moved by at most 5 percent
relative to the stored odds (a nonpositive stored odds counts as a full
change). The method issues only SELECT queries, so the state is returned
untouched. -/
def is_duplicate (db : DBState) (market_name platform_a platform_b : String)
    (odds_a odds_b : ℚ) : Bool × DBState :=
  match db.rows.find? (fun r => same_hash r market_name platform_a platform_b odds_a odds_b) with
  | some row => (row.bet_placed, db)
  | none =>
    match (db.rows.filter (fun r => same_pair r market_name platform_a platform_b)).getLast? with
    | none => (false, db)
    | some prev =>
      (decide ((if 0 < prev.odds_a then |odds_a - prev.odds_a| / prev.odds_a else 1) ≤ 1/20 ∧
        (if 0 < prev.odds_b then |odds_b - prev.odds_b| / prev.odds_b else 1) ≤ 1/20), db)

/-- ArbitrageDatabase.insert_opportunity, lines 173-245: an exact-hash row
short-circuits (None when placed, the existing id when unplaced); otherwise
the similar-odds logic of is_duplicate decides between a no-op (None) and an
insert of a fresh row with bet_placed = 0. -/
def insert_opportunity (db : DBState) (market_name platform_a platform_b : String)
    (odds_a odds_b profit_percentage bet_amount_a bet_amount_b total_capital
      guaranteed_profit : ℚ) (alert_sent : Bool) : Option ℕ × DBState :=
  match db.rows.find? (fun r => same_hash r market_name platform_a platform_b odds_a odds_b) with
  | some row => if row.bet_placed then (none, db) else (some row.id, db)
  | none =>
    if (is_duplicate db market_name platform_a platform_b odds_a odds_b).1 then (none, db)
    else
      (some db.next_id,
        ⟨db.rows ++ [⟨db.next_id, market_name, platform_a, platform_b, odds_a, odds_b,
          profit_percentage, bet_amount_a, bet_amount_b, total_capital, guaranteed_profit,
          alert_sent, false, 0⟩], db.next_id + 1⟩)

/-- A store with one recorded, not-yet-bet opportunity at odds (2, 2). -/
def sample_row : DBRow := ⟨1, "m", "pm", "cb", 2, 2, 10, 50, 50, 100, 10, false, false, 0⟩

def sample_db : DBState := ⟨[sample_row], 2⟩

/-! ## Normalizer

From src/normalizers/market_normalizer.py. The venue-specific metadata and
start_time fields play no role in the outcome-count behaviour and are
omitted. Python dict semantics (insertion order, in-place overwrite on an
existing key) are modelled by association lists with upsert. -/

structure RawPolymarketMarket where
  market_id : String
  title : String
  outcomes : List (String × ℚ)
  url : String
deriving DecidableEq

structure NormalizedMarket where
  platform : String
  market_id : String
  title : String
  outcomes : List (String × ℚ)
  url : String
deriving DecidableEq

structure RawCloudbetOutcome where
  event_name : String
  market_name : String
  outcome : String
  odds : ℚ
  url : String
deriving DecidableEq

/-- MarketNormalizer.normalize_polymarket, lines 15-35: each raw record
becomes a NormalizedMarket with its outcomes passed through unchanged; no
outcome-count filter is applied on this path. -/
def normalize_polymarket (raw_markets : List RawPolymarketMarket) : List NormalizedMarket :=
  raw_markets.map (fun m => ⟨"polymarket", m.market_id, m.title, m.outcomes, m.url⟩)

def cb_key (o : RawCloudbetOutcome) : String := o.event_name ++ "::" ++ o.market_name

/-- Python dict assignment d[k] = v: overwrite in place when k exists, else
append. -/
def upsert (l : List (String × ℚ)) (k : String) (v : ℚ) : List (String × ℚ) :=
  if l.any (fun p => p.1 = k) then
    l.map (fun p => if p.1 = k then (k, v) else p)
  else l ++ [(k, v)]

/-- One iteration of the grouping loop of normalize_cloudbet, lines 42-66:
create the market under its event::market key if absent, then record the
outcome's odds under its name. -/
def cb_group_step (acc : List (String × NormalizedMarket)) (o : RawCloudbetOutcome) :
    List (String × NormalizedMarket) :=
  if acc.any (fun p => p.1 = cb_key o) then
    acc.map (fun p => if p.1 = cb_key o then
        (p.1, ⟨p.2.platform, p.2.market_id, p.2.title,
          upsert p.2.outcomes o.outcome o.odds, p.2.url⟩)
      else p)
  else
    acc ++ [(cb_key o, ⟨"cloudbet", cb_key o, o.event_name ++ " - " ++ o.market_name,
      [(o.outcome, o.odds)], o.url⟩)]

/-- MarketNormalizer.normalize_cloudbet, lines 37-80: group raw outcomes by
event::market, then keep only the grouped markets with at least 2 outcomes. -/
def normalize_cloudbet (raw_outcomes : List RawCloudbetOutcome) : List NormalizedMarket :=
  ((raw_outcomes.foldl cb_group_step []).map Prod.snd).filter
    (fun m => 2 ≤ m.outcomes.length)

theorem sample_same_hash_false :
    same_hash sample_row "m" "pm" "cb" (201/100) 2 = false := by
  norm_num [same_hash, sample_row, round6]

theorem sample_is_duplicate_true :
    (is_duplicate sample_db "m" "pm" "cb" (201/100) 2).1 = true := by
  have hsh := sample_same_hash_false
  simp only [sample_row] at hsh
  have habs : |(1/100 : ℚ)| = 1/100 := abs_of_nonneg (by norm_num)
  norm_num [is_duplicate, sample_db, same_pair, sample_row, hsh, habs,
    List.find?, List.filter, List.getLast?]

/-- C10: is_duplicate is read-only: for any arguments and any store contents
the rows are identical before and after the call (the method only issues
SELECT queries). -/
theorem is_duplicate_readonly (db : DBState) (market_name platform_a platform_b : String)
    (odds_a odds_b : ℚ) :
    (is_duplicate db market_name platform_a platform_b odds_a odds_b).2 = db := by
  unfold is_duplicate
  split
  · rfl
  · split
    · rfl
    · rfl

/-- C5 counterexample: the store holds one record for the market and venue
pair at odds (2, 2) with no bet placed; a query at odds (2.01, 2) misses the
identity hash but lands in the 5 percent similar-odds path, and is_duplicate
returns true even though every prior record for that pair has bet_placed
false. -/
theorem is_duplicate_unplaced_true_cex :
    (is_duplicate sample_db "m" "pm" "cb" (201/100) 2).1 = true ∧
    sample_db.rows.all (fun r => !r.bet_placed) = true :=
  ⟨sample_is_duplicate_true, rfl⟩

/-- C5 (amended): is_duplicate returns true exactly when either the
exact-identity record (same market, venues, odds rounded to 1e-6) exists with
a bet placed, or no exact-identity record exists and the most recent record
for the same market and venue pair has both odds within 5 percent relative
drift of the stored odds — regardless of that record's bet_placed flag. Only
an exact-identity unplaced record is always eligible for retry. -/
theorem is_duplicate_characterization (db : DBState)
    (market_name platform_a platform_b : String) (odds_a odds_b : ℚ) :
    (is_duplicate db market_name platform_a platform_b odds_a odds_b).1 = true ↔
      ((∃ r, db.rows.find?
          (fun r => same_hash r market_name platform_a platform_b odds_a odds_b) = some r ∧
          r.bet_placed = true) ∨
       (db.rows.find?
          (fun r => same_hash r market_name platform_a platform_b odds_a odds_b) = none ∧
        ∃ prev, (db.rows.filter
            (fun r => same_pair r market_name platform_a platform_b)).getLast? = some prev ∧
          (if 0 < prev.odds_a then |odds_a - prev.odds_a| / prev.odds_a else 1) ≤ 1/20 ∧
          (if 0 < prev.odds_b then |odds_b - prev.odds_b| / prev.odds_b else 1) ≤ 1/20)) := by
  unfold is_duplicate
  rcases hfind : db.rows.find?
      (fun r => same_hash r market_name platform_a platform_b odds_a odds_b) with _ | row
  · rcases hlast : (db.rows.filter
        (fun r => same_pair r market_name platform_a platform_b)).getLast? with _ | prev
    · simp [hfind, hlast]
    · simp [hfind, hlast]
  · simp [hfind]

/-- C6 counterexample: with the same store (one unplaced record at odds
(2, 2)), insert_opportunity at odds (2.01, 2) matches no identity-hash
record, yet it returns None and inserts nothing, because the similar-odds
path of is_duplicate blocks it; the claim requires a fresh row and id here. -/
theorem insert_opportunity_similar_noop_cex :
    insert_opportunity sample_db "m" "pm" "cb" (201/100) 2 10 50 50 100 10 false =
      (none, sample_db) ∧
    sample_db.rows.all (fun r => !(same_hash r "m" "pm" "cb" (201/100) 2)) = true := by
  have hsh := sample_same_hash_false
  constructor
  · unfold insert_opportunity
    rw [show sample_db.rows = [sample_row] from rfl]
    simp [List.find?, hsh, sample_is_duplicate_true]
  · simp [sample_db, hsh]

/-- C6 (amended): insert_opportunity returns the existing id when an
exact-identity record exists unplaced and None when it exists placed; with no
exact-identity record it returns None without inserting whenever the
similar-odds rule fires (most recent same-pair record within 5 percent on
both sides, placed or not), and only otherwise — in particular when either
odds value drifted by more than 5 percent — inserts a fresh unplaced row and
returns its id. -/
theorem insert_opportunity_characterization (db : DBState)
    (market_name platform_a platform_b : String)
    (odds_a odds_b profit_percentage bet_amount_a bet_amount_b total_capital
      guaranteed_profit : ℚ) (alert_sent : Bool) :
    (∀ row, db.rows.find?
        (fun r => same_hash r market_name platform_a platform_b odds_a odds_b) = some row →
      insert_opportunity db market_name platform_a platform_b odds_a odds_b
          profit_percentage bet_amount_a bet_amount_b total_capital guaranteed_profit
          alert_sent =
        (if row.bet_placed then none else some row.id, db)) ∧
    (db.rows.find?
        (fun r => same_hash r market_name platform_a platform_b odds_a odds_b) = none →
      insert_opportunity db market_name platform_a platform_b odds_a odds_b
          profit_percentage bet_amount_a bet_amount_b total_capital guaranteed_profit
          alert_sent =
        (if (is_duplicate db market_name platform_a platform_b odds_a odds_b).1 then
          (none, db)
        else
          (some db.next_id,
            ⟨db.rows ++ [⟨db.next_id, market_name, platform_a, platform_b, odds_a, odds_b,
              profit_percentage, bet_amount_a, bet_amount_b, total_capital,
              guaranteed_profit, alert_sent, false, 0⟩], db.next_id + 1⟩))) := by
  constructor
  · intro row hrow
    unfold insert_opportunity
    rw [hrow]
    cases hb : row.bet_placed <;> simp [hb]
  · intro hnone
    unfold insert_opportunity
    rw [hnone]

/-- Witness for the amended C6: re-inserting the stored unplaced opportunity
at its exact odds returns the existing row id 1 and leaves the store
unchanged. -/
theorem insert_opportunity_characterization_witness :
    insert_opportunity sample_db "m" "pm" "cb" 2 2 10 50 50 100 10 false =
      (some 1, sample_db) :=
  (insert_opportunity_characterization sample_db "m" "pm" "cb" 2 2 10 50 50 100 10
    false).1 sample_row (by
      have h : same_hash sample_row "m" "pm" "cb" 2 2 = true := by
        norm_num [same_hash, sample_row, round6]
      simp only [sample_row] at h
      simp [sample_db, sample_row, List.find?, h])

/-- C8 counterexample: a Polymarket raw record with a single outcome passes
through normalize_polymarket unfiltered, so the returned list contains a
Market with fewer than 2 outcome pairs. -/
theorem normalize_polymarket_no_filter_cex :
    normalize_polymarket [⟨"id", "t", [("YES", 2)], "u"⟩] =
      [⟨"polymarket", "id", "t", [("YES", 2)], "u"⟩] ∧
    ([(("YES" : String), (2 : ℚ))]).length < 2 :=
  ⟨rfl, by norm_num⟩

/-- C8 (amended): every market returned by the normalize_cloudbet path has at
least 2 outcome pairs (grouped records with fewer are discarded); the
normalize_polymarket path applies no such filter and passes every raw record
through with whatever outcomes it carries. -/
theorem normalize_cloudbet_min_outcomes (raw_outcomes : List RawCloudbetOutcome)
    (m : NormalizedMarket) (hm : m ∈ normalize_cloudbet raw_outcomes) :
    2 ≤ m.outcomes.length := by
  unfold normalize_cloudbet at hm
  exact of_decide_eq_true (List.mem_filter.1 hm).2

/-- Witness for the amended C8: two raw sportsbook outcomes for the same
event and market group into one returned market with 2 outcomes. -/
theorem normalize_cloudbet_min_outcomes_witness :
    2 ≤ (⟨"cloudbet", "e::m", "e - m", [("X", 2), ("Y", 3)], "u"⟩
      : NormalizedMarket).outcomes.length :=
  normalize_cloudbet_min_outcomes
    [⟨"e", "m", "X", 2, "u"⟩, ⟨"e", "m", "Y", 3, "u"⟩]
    ⟨"cloudbet", "e::m", "e - m", [("X", 2), ("Y", 3)], "u"⟩
    (List.mem_singleton_self _)

end ArbBot
